import Mathlib

/-!
Verification of the OriginStamp event-deduplication core.

The Python modules `src/fingerprinting.py`, `src/similarity.py`,
`src/reliability.py`, `src/digest.py`, `src/config.py` and
`src/utils/timezone.py` are shallowly embedded below.  Text is modelled as
`List Char` (ASCII fragment of Python's Unicode-aware `\w`, `\s`, `lower`),
numbers as `ℚ` (exact arithmetic in place of IEEE floats), and the regular
expressions used by `normalize_text` as hand-written left-to-right scanners
with the same leftmost/greedy semantics.  Recursive scanners take an explicit
fuel argument (always instantiated with the list length) so that every
definition reduces in the kernel.
-/

namespace OriginStamp

/-- Python regex `\s` on the ASCII fragment. -/
def isPySpace (c : Char) : Bool :=
  c = ' ' || c = '\t' || c = '\n' || c = '\r' || c = '\x0b' || c = '\x0c'

/-- Python regex `\w` on the ASCII fragment: alphanumeric or underscore. -/
def isPyWord (c : Char) : Bool :=
  c.isAlphanum || c = '_'

/-- Python `str.strip()` (strip leading and trailing whitespace). -/
def pyStrip (l : List Char) : List Char :=
  ((l.dropWhile isPySpace).reverse.dropWhile isPySpace).reverse

/-- Python `str.split()`: split on whitespace runs, dropping empties
    (fueled recursion; fuel `≥ l.length` gives the real behaviour). -/
def pyWordsF : Nat → List Char → List (List Char)
  | 0, _ => []
  | _ + 1, [] => []
  | fuel + 1, c :: rest =>
    if isPySpace c then
      pyWordsF fuel rest
    else
      (c :: rest.takeWhile (fun d => !isPySpace d)) ::
        pyWordsF fuel (rest.dropWhile (fun d => !isPySpace d))

/-- Python `str.split()`. -/
def pyWords (l : List Char) : List (List Char) := pyWordsF l.length l

/-- Python `' '.join(ws)`. -/
def joinWs : List (List Char) → List Char
  | [] => []
  | [w] => w
  | w :: w2 :: ws => w ++ ' ' :: joinWs (w2 :: ws)

/-- Head of the list exists and is not whitespace (the `\S` test that the
    URL scanner performs just after the literal `http`/`www`). -/
def headNonSpace : List Char → Bool
  | [] => false
  | d :: _ => !isPySpace d

/-- Head of the list exists and is a word character. -/
def headWord : List Char → Bool
  | [] => false
  | d :: _ => isPyWord d

/-- Model of `re.sub(r'http\S+|www\S+', '', text)`: left-to-right scan, each
    alternative is the literal followed by a greedy run of non-space. -/
def subUrlF : Nat → List Char → List Char
  | 0, l => l
  | _ + 1, [] => []
  | fuel + 1, c :: rest =>
    if ['h', 't', 't', 'p'].isPrefixOf (c :: rest) &&
        headNonSpace ((c :: rest).drop 4) then
      subUrlF fuel (((c :: rest).drop 4).dropWhile (fun d => !isPySpace d))
    else if ['w', 'w', 'w'].isPrefixOf (c :: rest) &&
        headNonSpace ((c :: rest).drop 3) then
      subUrlF fuel (((c :: rest).drop 3).dropWhile (fun d => !isPySpace d))
    else
      c :: subUrlF fuel rest

def subUrl (l : List Char) : List Char := subUrlF l.length l

/-- Model of `re.sub(r'@\w+', '', text)`. -/
def subMentionF : Nat → List Char → List Char
  | 0, l => l
  | _ + 1, [] => []
  | fuel + 1, c :: rest =>
    if c = '@' && headWord rest then
      subMentionF fuel (rest.dropWhile isPyWord)
    else
      c :: subMentionF fuel rest

def subMention (l : List Char) : List Char := subMentionF l.length l

/-- Model of `re.sub(r'#(\w+)', r'\1', text)` (drop the `#`, keep the word). -/
def subHashF : Nat → List Char → List Char
  | 0, l => l
  | _ + 1, [] => []
  | fuel + 1, c :: rest =>
    if c = '#' && headWord rest then
      rest.takeWhile isPyWord ++ subHashF fuel (rest.dropWhile isPyWord)
    else
      c :: subHashF fuel rest

def subHash (l : List Char) : List Char := subHashF l.length l

/-- The function `normalize_text` from `src/fingerprinting.py`: remove URLs, remove
    mentions, unwrap hashtags, lowercase, remove punctuation
    (`[^\w\s]`), collapse whitespace, strip. -/
def normalize_text (t : List Char) : List Char :=
  if t = [] then []
  else
    pyStrip (joinWs (pyWords
      (((subHash (subMention (subUrl t))).map Char.toLower).filter
        (fun c => isPyWord c || isPySpace c))))

/-! Model of difflib.SequenceMatcher (junk-free fragment).

`calculate_text_similarity` calls `difflib.SequenceMatcher(None, a, b).ratio()`.
`ratio` is `2*M/T` where `T = len(a)+len(b)` (and `1.0` when `T = 0`) and `M`
is the total size of the matching blocks.  We model `find_longest_match`
(without the junk/autojunk heuristics) by its specification: the longest
common contiguous run, the lexicographically least `(i, j)` winning ties. -/

/-- Length of the longest common prefix of two lists. -/
def cpl : List Char → List Char → Nat
  | a :: as, b :: bs => if a = b then cpl as bs + 1 else 0
  | _, _ => 0

/-- Model of `SequenceMatcher.find_longest_match` over the whole strings: the triple
    `(i, j, k)` of the longest matching block, earliest `i` then earliest `j`
    on ties (fold keeps the first strict maximum in lexicographic scan). -/
def flm (a b : List Char) : Nat × Nat × Nat :=
  (List.range a.length).foldl (fun acc i =>
    (List.range b.length).foldl (fun acc2 j =>
      if acc2.2.2 < cpl (a.drop i) (b.drop j) then (i, j, cpl (a.drop i) (b.drop j))
      else acc2) acc) (0, 0, 0)

/-- Total size of all matching blocks (`get_matching_blocks` recursion):
    longest block, then recurse on the two flanks.  Fueled so that the
    kernel can evaluate it; fuel `a.length + b.length` always suffices. -/
def mbF : Nat → List Char → List Char → Nat
  | 0, _, _ => 0
  | fuel + 1, a, b =>
    if (flm a b).2.2 = 0 then 0
    else
      mbF fuel (a.take (flm a b).1) (b.take (flm a b).2.1) + (flm a b).2.2 +
        mbF fuel (a.drop ((flm a b).1 + (flm a b).2.2))
          (b.drop ((flm a b).2.1 + (flm a b).2.2))

/-- Total matched size `M` used by `ratio`. -/
def matchTotal (a b : List Char) : Nat := mbF (a.length + b.length) a b

/-- The value `SequenceMatcher.ratio() * 100`: `200*M/T`, and `100` when both empty. -/
def charScore (a b : List Char) : ℚ :=
  if a.length + b.length = 0 then 100
  else (200 * matchTotal a b : ℚ) / ((a.length : ℚ) + (b.length : ℚ))

/-- Token set of a string: Python `set(text.split())`. -/
def tokenSet (l : List Char) : Finset (List Char) := (pyWords l).toFinset

/-- The function `calculate_text_similarity` from `src/similarity.py`, in the environment
    where the optional sentence-transformer model is unavailable
    (`get_sentence_model()` returns `None`), so the final score is
    `char_score * 0.5 + token_score * 0.5`. -/
def calculate_text_similarity (t1 t2 : List Char) : ℚ :=
  if t1 = [] || t2 = [] then 0
  else
    let s1 := pyStrip (t1.map Char.toLower)
    let s2 := pyStrip (t2.map Char.toLower)
    let char_score := charScore s1 s2
    let token_score : ℚ :=
      if tokenSet s1 = ∅ || tokenSet s2 = ∅ then 0
      else ((tokenSet s1 ∩ tokenSet s2).card : ℚ) /
        ((tokenSet s1 ∪ tokenSet s2).card : ℚ) * 100
    char_score * 0.5 + token_score * 0.5

/-- An extracted entity dict `{'type': ..., 'value': ..., 'confidence': ...}`. -/
structure Entity where
  etype : List Char
  value : List Char
  confidence : ℚ
deriving DecidableEq, Repr

/-- The function `calculate_entity_overlap`: Jaccard over case-folded entity values. -/
def calculate_entity_overlap (e1 e2 : List Entity) : ℚ :=
  if e1 = [] || e2 = [] then 0
  else if ((e1.map (fun e => e.value.map Char.toLower)).toFinset ∪
      (e2.map (fun e => e.value.map Char.toLower)).toFinset).card = 0 then 0
  else (((e1.map (fun e => e.value.map Char.toLower)).toFinset ∩
      (e2.map (fun e => e.value.map Char.toLower)).toFinset).card : ℚ) /
    (((e1.map (fun e => e.value.map Char.toLower)).toFinset ∪
      (e2.map (fun e => e.value.map Char.toLower)).toFinset).card : ℚ) * 100

/-- The function `calculate_media_similarity`: 100 iff the hash sets intersect. -/
def calculate_media_similarity (m1 m2 : List (List Char)) : ℚ :=
  if m1 = [] || m2 = [] then 0
  else if m1.toFinset ∩ m2.toFinset ≠ ∅ then 100
  else 0

/-- The function `calculate_url_similarity`: 100 iff the canonical URL sets intersect. -/
def calculate_url_similarity (u1 u2 : List (List Char)) : ℚ :=
  if u1 = [] || u2 = [] then 0
  else if u1.toFinset ∩ u2.toFinset ≠ ∅ then 100
  else 0

/-- A report/tweet dict as consumed by the similarity and classification
    code (the keys those functions read, plus the `similarity_score` key
    that `classify_tweet` writes into candidate dicts). -/
structure Tweet where
  text_normalized : List Char
  entities : List Entity
  media_hashes : List (List Char)
  urls_canonical : List (List Char)
  timestamp_et : Option Int
  timestamp_utc : Option Int
  author_tier : List Char
  canonical_event_id : Option Int
  tweet_id : Option (List Char)
  display_time : Option (List Char)
  author : Option (List Char)
  similarity_score : Option ℚ
deriving DecidableEq, Repr

/-- The function `calculate_similarity_score`: the 40/25/20/15 weighted composite. -/
def calculate_similarity_score (a b : Tweet) : ℚ :=
  calculate_text_similarity a.text_normalized b.text_normalized * 0.40 +
  calculate_entity_overlap a.entities b.entities * 0.25 +
  calculate_media_similarity a.media_hashes b.media_hashes * 0.20 +
  calculate_url_similarity a.urls_canonical b.urls_canonical * 0.15

/-- The function `detect_new_information` from `src/similarity.py`. -/
def detect_new_information (tn told : Tweet) : Bool :=
  (told.entities.length + 2 < tn.entities.length) ||
  (told.media_hashes.length < tn.media_hashes.length) ||
  (tn.urls_canonical.toFinset \ told.urls_canonical.toFinset ≠ ∅ : Bool) ||
  (let oldWC := (pyWords told.text_normalized).length
   let newWC := (pyWords tn.text_normalized).length
   0 < oldWC && 13 * oldWC < 10 * newWC)

/-- The function `get_tier_priority` from `src/config.py` (`TIER_ORDER`, default 99). -/
def get_tier_priority (tier : List Char) : Nat :=
  if tier = "1A_OSINT".data then 1
  else if tier = "1B_OFFICIAL".data then 2
  else if tier = "1C_WIRE".data then 3
  else if tier = "2_AMPLIFIER".data then 4
  else if tier = "3_SECONDARY".data then 5
  else if tier = "3_VERIFICATION".data then 5
  else 99

/-- The function `format_time_delta_seconds` from `src/utils/timezone.py`. -/
def format_time_delta_seconds (seconds : Int) : List Char :=
  if seconds < 0 then "In the future".data
  else if seconds < 60 then "Just now".data
  else
    let m := seconds.toNat / 60
    let h := m / 60
    let d := h / 24
    if 0 < d then (toString d ++ "d " ++ toString (h % 24) ++ "h ago").data
    else if 0 < h then (toString h ++ "h " ++ toString (m % 60) ++ "m ago").data
    else (toString m ++ "m ago").data

/-- Python `round(q, 2)` modelled over ℚ: round half-to-even at two
    decimal places. -/
def roundHalfEven (q : ℚ) : ℤ :=
  if q - ⌊q⌋ < 1/2 then ⌊q⌋
  else if 1/2 < q - ⌊q⌋ then ⌊q⌋ + 1
  else if Even ⌊q⌋ then ⌊q⌋ else ⌊q⌋ + 1

def round2 (q : ℚ) : ℚ := (roundHalfEven (q * 100) : ℚ) / 100

/-- The classification result dict. -/
structure ClassifyResult where
  status : List Char
  confidence : ℚ
  canonical_event_id : Option Int
  original_tweet_id : Option (List Char)
  original_timestamp : Option (List Char)
  original_source : Option (List Char)
  time_delta_seconds : Int
  time_delta_display : List Char
  added_new_info : Bool
  similarity_score : Option ℚ
deriving DecidableEq, Repr

/-- The two early-ORIGINAL return dicts of `classify_tweet` (identical but
    for the confidence value). -/
def originalResult (conf : ℚ) : ClassifyResult :=
  { status := "ORIGINAL".data
    confidence := conf
    canonical_event_id := none
    original_tweet_id := none
    original_timestamp := none
    original_source := none
    time_delta_seconds := 0
    time_delta_display := "First report".data
    added_new_info := false
    similarity_score := none }

/-- The best-match loop of `classify_tweet`: start from
    `best_match = None, best_similarity = 0`, replace on a strictly greater
    score (`similarity > best_similarity`). -/
def findBestAux (r : Tweet) : Option Tweet → ℚ → List Tweet → Option Tweet × ℚ
  | bm, bs, [] => (bm, bs)
  | bm, bs, m :: rest =>
    if bs < calculate_similarity_score r m then
      findBestAux r (some m) (calculate_similarity_score r m) rest
    else findBestAux r bm bs rest

/-- The loop also executes `match['similarity_score'] = similarity` on every
    candidate dict: the post-state of the caller's `matches` list. -/
def scoreMatches (r : Tweet) (ms : List Tweet) : List Tweet :=
  ms.map fun m =>
    { m with similarity_score := some (calculate_similarity_score r m) }

/-- Model of `incoming_tweet.get('timestamp_et') or incoming_tweet.get('timestamp_utc')`. -/
def getTime (t : Tweet) : Option Int :=
  t.timestamp_et.orElse fun _ => t.timestamp_utc

/-- Time delta in seconds between the incoming report and the best match
    (`int((incoming_time - original_time).total_seconds())`, or 0 when either
    timestamp is missing). -/
def timeDelta (incoming bm : Tweet) : Int :=
  match getTime incoming, getTime bm with
  | some ti, some t0 => ti - t0
  | _, _ => 0

/-- The classification-and-confidence pair computed by the decision tree of
    `classify_tweet` once a best match at or above `SIMILARITY_THRESHOLD_UPDATE`
    exists: default `("RELATED", best_similarity)`, overridden by the
    high-similarity branch (`≥ 85`: independence window, new information,
    tier comparison) or the medium branch (`≥ 70`). -/
def classifyCC (incoming bm : Tweet) (bs : ℚ) : List Char × ℚ :=
  if 85 ≤ bs then
    if timeDelta incoming bm < 5 * 60 then ("RELATED".data, bs * 0.8)
    else if detect_new_information incoming bm then ("UPDATE".data, bs)
    else if get_tier_priority bm.author_tier ≤ get_tier_priority incoming.author_tier then
      ("REPOST".data, bs)
    else ("RELATED".data, bs * 0.85)
  else if 70 ≤ bs then
    if detect_new_information incoming bm then ("UPDATE".data, bs)
    else ("RELATED".data, bs)
  else ("RELATED".data, bs)

/-- The final return dict of `classify_tweet` in the matched case. -/
def classifyMain (incoming bm : Tweet) (bs : ℚ) : ClassifyResult :=
  { status := (classifyCC incoming bm bs).1
    confidence := round2 (classifyCC incoming bm bs).2
    canonical_event_id := bm.canonical_event_id
    original_tweet_id := bm.tweet_id
    original_timestamp := bm.display_time
    original_source := bm.author
    time_delta_seconds := timeDelta incoming bm
    time_delta_display := format_time_delta_seconds (timeDelta incoming bm)
    added_new_info := detect_new_information incoming bm
    similarity_score := some bs }

/-- The function `classify_tweet` from `src/similarity.py`
    (`SIMILARITY_THRESHOLD_REPOST = 85`, `SIMILARITY_THRESHOLD_UPDATE = 70`,
    `LOOKBACK_MINUTES_INDEPENDENT = 5`, from `src/config.py`).
    Returns the result dict together with the post-state of the `matches`
    list (whose dicts the Python loop mutates in place by writing a
    `similarity_score` key into each). -/
def classify_tweet (incoming : Tweet) (cands : List Tweet) : ClassifyResult × List Tweet :=
  if cands = [] then (originalResult 100, cands)
  else
    match findBestAux incoming none 0 cands with
    | (none, _) => (originalResult 100, scoreMatches incoming cands)
    | (some bm, bs) =>
      if bs < 70 then (originalResult (100 - bs), scoreMatches incoming cands)
      else (classifyMain incoming bm bs, scoreMatches incoming cands)

/-! Embedding of src/reliability.py. -/

/-- One row of the `account_metrics` table, as read by
    `calculate_reliability_score`. -/
structure AccountMetrics where
  total_tweets_tracked : Nat
  total_original_reports : Nat
  total_reposts : Nat
  total_updates : Nat
  false_alarm_count : Nat
  tier : List Char
deriving DecidableEq, Repr

/-- The `tier_bonuses` lookup table (default 0.02). -/
def tier_bonus (tier : List Char) : ℚ :=
  if tier = "1A_OSINT".data then 0.10
  else if tier = "1B_OFFICIAL".data then 0.10
  else if tier = "1C_WIRE".data then 0.10
  else if tier = "2_AMPLIFIER".data then 0.05
  else if tier = "3_SECONDARY".data then 0.02
  else if tier = "3_VERIFICATION".data then 0.08
  else 0.02

/-- The function `calculate_reliability_score` from `src/reliability.py`, as a function of
    the metrics row the database returns for the account (`none` models a
    missing row). -/
def calculate_reliability_score (metrics : Option AccountMetrics) : ℚ :=
  match metrics with
  | none => 0.50
  | some m =>
    if m.total_tweets_tracked = 0 then 0.50
    else
      let total : ℚ := m.total_tweets_tracked
      let original_score := (m.total_original_reports : ℚ) / total * 0.40
      let update_score := min ((m.total_updates : ℚ) / total * 2) 0.30
      let false_alarm_score := (1 - (m.false_alarm_count : ℚ) / total) * 0.20
      let tier_score := tier_bonus m.tier
      max 0 (min 1 (original_score + update_score + false_alarm_score + tier_score))

/-! Embedding of src/digest.py.

`add_headline` also stamps `headline_data['added_at'] = get_current_et()`
(an external wall-clock read used only by the digest timer) and logs; both
are elided.  `is_newsworthy`'s second component, a human-readable reason
string used only for logging, is elided as well: only the boolean decision
is consumed by `add_headline`. -/

/-- A headline dict as consumed by `add_headline`. -/
structure Headline where
  text : List Char
  author : Option (List Char)
  display_time : Option (List Char)
  importance : Option Int
  entities : List Entity
  event_id : Option Int
deriving DecidableEq, Repr

/-- Python `needle in hay` substring test. -/
def pyContains (hay needle : List Char) : Bool :=
  (List.range (hay.length + 1)).any fun i => needle.isPrefixOf (hay.drop i)

def IMPORTANCE_KEYWORDS : List (List Char) :=
  ["strike", "attack", "missile", "drone", "explosion", "killed",
   "iran", "israel", "hezbollah", "hamas", "idf", "irgc",
   "breaking", "urgent", "confirmed", "official"].map String.data

def SKIP_INDICATORS : List (List Char) :=
  ["thank you", "thanks", "congrats", "happy birthday", "rip ",
   "lol", "lmao", "haha", "omg", "😂", "🤣", "podcast", "latest pod",
   "subscribe", "follow me", "check out", "new episode",
   "we are live", "going live", "now live", "live now", "discussing",
   "tune in", "watch live", "stream", "join us"].map String.data

def MIN_TEXT_LENGTH : Nat := 80

def MIN_IMPORTANCE_SCORE : Int := 20

/-- The function `calculate_importance` from `src/digest.py`: 10 per matched keyword,
    5 per entity, 8 per GPE/LOC entity, 15 per MILITARY_ORG entity. -/
def calculate_importance (text : List Char) (entities : List Entity) : Int :=
  let text_lower := text.map Char.toLower
  10 * ((IMPORTANCE_KEYWORDS.filter fun k => pyContains text_lower k).length : Int) +
  5 * (entities.length : Int) +
  8 * ((entities.filter fun e =>
    e.etype = "GPE".data || e.etype = "LOC".data).length : Int) +
  15 * ((entities.filter fun e => e.etype = "MILITARY_ORG".data).length : Int)

/-- The function `is_newsworthy` from `src/digest.py` (boolean decision only). -/
def is_newsworthy (text : List Char) (entities : List Entity)
    (importance : Int) : Bool :=
  if (joinWs ((pyWords text).filter fun w =>
      !("http".data.isPrefixOf w))).length < MIN_TEXT_LENGTH then false
  else if SKIP_INDICATORS.any (fun ind =>
      pyContains (text.map Char.toLower) ind) then false
  else if importance < MIN_IMPORTANCE_SCORE &&
      !((entities.any fun e => e.etype = "GPE".data || e.etype = "LOC".data) ||
        (entities.any fun e =>
          e.etype = "ORG".data || e.etype = "MILITARY_ORG".data)) then false
  else true

/-- Model of `deque(maxlen=50)` append: push right, evict oldest beyond capacity. -/
def pushMaxlen (cap : Nat) (q : List Headline) (h : Headline) : List Headline :=
  let q2 := q ++ [h]
  if cap < q2.length then q2.drop (q2.length - cap) else q2

/-- The function `add_headline` from `src/digest.py`, as a function from the pending
    queue to the new pending queue.  Skips RTs, replies, non-newsworthy
    items, and headlines whose (truthy) event id is already queued; the
    stored dict carries the computed importance. -/
def add_headline (h : Headline) (queue : List Headline) : List Headline :=
  if "RT @".data.isPrefixOf h.text then queue
  else if "@".data.isPrefixOf h.text then queue
  else if !is_newsworthy h.text h.entities
      (h.importance.getD (calculate_importance h.text h.entities)) then queue
  else if (match h.event_id with
    | some e => !(e = 0) && queue.any fun ex => ex.event_id = some e
    | none => false) then queue
  else pushMaxlen 50 queue
    { h with
      importance := some (h.importance.getD (calculate_importance h.text h.entities)) }

/-! Lemma base: folds, matching-block bounds, self-similarity. -/

lemma foldl_inv {α β : Type} (P : β → Prop) (f : β → α → β) :
    ∀ (l : List α) (b : β), P b → (∀ b1 a1, a1 ∈ l → P b1 → P (f b1 a1)) →
      P (l.foldl f b)
  | [], _, hb, _ => hb
  | a :: l, b, hb, hf =>
    foldl_inv P f l (f b a) (hf b a (List.mem_cons_self a l) hb)
      (fun b1 a1 h1 => hf b1 a1 (List.mem_cons_of_mem _ h1))

lemma cpl_le_left : ∀ a b : List Char, cpl a b ≤ a.length
  | [], _ => Nat.le_refl _
  | _ :: _, [] => Nat.zero_le _
  | _ :: as, _ :: bs => by
    simp only [cpl]
    split
    · exact Nat.succ_le_succ (cpl_le_left as bs)
    · exact Nat.zero_le _

lemma cpl_le_right : ∀ a b : List Char, cpl a b ≤ b.length
  | [], _ => Nat.zero_le _
  | _ :: _, [] => Nat.le_refl _
  | _ :: as, _ :: bs => by
    simp only [cpl]
    split
    · exact Nat.succ_le_succ (cpl_le_right as bs)
    · exact Nat.zero_le _

lemma cpl_self : ∀ a : List Char, cpl a a = a.length
  | [] => rfl
  | a :: as => by simp [cpl, cpl_self as]

/-- Validity of a candidate block triple for the pair `(a, b)`. -/
def flmValid (a b : List Char) (t : Nat × Nat × Nat) : Prop :=
  t.1 + t.2.2 ≤ a.length ∧ t.2.1 + t.2.2 ≤ b.length

lemma flm_valid (a b : List Char) : flmValid a b (flm a b) := by
  unfold flm
  apply foldl_inv (flmValid a b)
  · exact ⟨Nat.zero_le _, Nat.zero_le _⟩
  · intro acc i hi hacc
    apply foldl_inv (flmValid a b)
    · exact hacc
    · intro acc2 j hj hacc2
      split
      · have h1 : cpl (a.drop i) (b.drop j) ≤ a.length - i := by
          simpa using cpl_le_left (a.drop i) (b.drop j)
        have h2 : i < a.length := List.mem_range.mp hi
        have h3 : cpl (a.drop i) (b.drop j) ≤ b.length - j := by
          simpa using cpl_le_right (a.drop i) (b.drop j)
        have h4 : j < b.length := List.mem_range.mp hj
        refine ⟨?_, ?_⟩
        · show i + cpl (a.drop i) (b.drop j) ≤ a.length
          omega
        · show j + cpl (a.drop i) (b.drop j) ≤ b.length
          omega
      · exact hacc2

lemma mbF_le_min : ∀ (fuel : Nat) (a b : List Char),
    mbF fuel a b ≤ min a.length b.length
  | 0, _, _ => Nat.zero_le _
  | fuel + 1, a, b => by
    have hv := flm_valid a b
    rcases hv with ⟨h1, h2⟩
    unfold mbF
    split
    · exact Nat.zero_le _
    · have hL := mbF_le_min fuel (a.take (flm a b).1) (b.take (flm a b).2.1)
      have hR := mbF_le_min fuel (a.drop ((flm a b).1 + (flm a b).2.2))
        (b.drop ((flm a b).2.1 + (flm a b).2.2))
      simp only [List.length_take, List.length_drop] at hL hR
      omega

lemma matchTotal_le (a b : List Char) :
    matchTotal a b ≤ min a.length b.length :=
  mbF_le_min _ a b

lemma charScore_nonneg (a b : List Char) : 0 ≤ charScore a b := by
  unfold charScore
  split
  · norm_num
  · positivity

lemma charScore_le_100 (a b : List Char) : charScore a b ≤ 100 := by
  unfold charScore
  split
  · norm_num
  · rename_i h
    have hM := matchTotal_le a b
    have hpos : (0 : ℚ) < (a.length : ℚ) + (b.length : ℚ) := by
      have : 0 < a.length + b.length := Nat.pos_of_ne_zero h
      exact_mod_cast this
    rw [div_le_iff₀ hpos]
    have h2 : 2 * matchTotal a b ≤ a.length + b.length := by
      have := Nat.min_le_left a.length b.length
      have := Nat.min_le_right a.length b.length
      omega
    have h2q : (2 * matchTotal a b : ℚ) ≤ (a.length : ℚ) + (b.length : ℚ) := by
      exact_mod_cast h2
    nlinarith

lemma flm_nil_left (b : List Char) : flm [] b = (0, 0, 0) := by
  simp [flm]

lemma mbF_nil_left : ∀ fuel b, mbF fuel [] b = 0
  | 0, _ => rfl
  | fuel + 1, b => by simp [mbF, flm_nil_left]

lemma flm_self (s : List Char) (hs : s ≠ []) : flm s s = (0, 0, s.length) := by
  have hn : 0 < s.length := List.length_pos.mpr hs
  have hkeep : ∀ (l : List Nat) (i : Nat) (acc : Nat × Nat × Nat),
      acc = (0, 0, s.length) →
      l.foldl (fun acc2 j =>
        if acc2.2.2 < cpl (s.drop i) (s.drop j) then (i, j, cpl (s.drop i) (s.drop j))
        else acc2) acc = (0, 0, s.length) := by
    intro l i acc hacc
    refine foldl_inv (fun acc2 => acc2 = (0, 0, s.length)) _ l acc hacc ?_
    intro b1 a1 _ hb1
    have hk : cpl (s.drop i) (s.drop a1) ≤ s.length :=
      le_trans (cpl_le_left _ _) (by simp)
    rw [hb1]
    simp only
    rw [if_neg (by simpa using Nat.not_lt.mpr hk)]
  obtain ⟨n, hn2⟩ : ∃ n, s.length = n + 1 := ⟨s.length - 1, by omega⟩
  have hrange : List.range s.length = 0 :: (List.range n).map Nat.succ := by
    rw [hn2, List.range_succ_eq_map]
  have hinner0 : (List.range s.length).foldl (fun acc2 j =>
      if acc2.2.2 < cpl (s.drop 0) (s.drop j) then (0, j, cpl (s.drop 0) (s.drop j))
      else acc2) ((0 : Nat), (0 : Nat), (0 : Nat)) = (0, 0, s.length) := by
    rw [hrange]
    simp only [List.foldl_cons]
    have hfirst : (if (((0 : Nat), (0 : Nat), (0 : Nat)) : Nat × Nat × Nat).2.2 <
        cpl (s.drop 0) (s.drop 0)
        then ((0 : Nat), (0 : Nat), cpl (s.drop 0) (s.drop 0))
        else (((0 : Nat), (0 : Nat), (0 : Nat)) : Nat × Nat × Nat)) = (0, 0, s.length) := by
      simp only [List.drop_zero, cpl_self]
      rw [if_pos (by simpa using hn)]
    rw [hfirst]
    exact hkeep _ 0 _ rfl
  have houter : ∀ (l : List Nat) (acc : Nat × Nat × Nat),
      acc = (0, 0, s.length) →
      l.foldl (fun acc i =>
        (List.range s.length).foldl (fun acc2 j =>
          if acc2.2.2 < cpl (s.drop i) (s.drop j) then (i, j, cpl (s.drop i) (s.drop j))
          else acc2) acc) acc = (0, 0, s.length) := by
    intro l acc hacc
    refine foldl_inv (fun acc2 => acc2 = (0, 0, s.length)) _ l acc hacc ?_
    intro b1 a1 _ hb1
    exact hkeep _ _ _ hb1
  show (List.range s.length).foldl (fun acc i =>
      (List.range s.length).foldl (fun acc2 j =>
        if acc2.2.2 < cpl (s.drop i) (s.drop j) then (i, j, cpl (s.drop i) (s.drop j))
        else acc2) acc) (0, 0, 0) = (0, 0, s.length)
  nth_rewrite 2 [hrange]
  simp only [List.foldl_cons]
  exact houter _ _ hinner0

lemma matchTotal_self (s : List Char) (hs : s ≠ []) :
    matchTotal s s = s.length := by
  have hn : 0 < s.length := List.length_pos.mpr hs
  obtain ⟨f, hf⟩ : ∃ f, s.length + s.length = f + 1 :=
    ⟨s.length + s.length - 1, by omega⟩
  unfold matchTotal
  rw [hf]
  unfold mbF
  rw [flm_self s hs]
  simp only
  rw [if_neg (by omega)]
  simp [mbF_nil_left, List.drop_length]

lemma charScore_self (s : List Char) (hs : s ≠ []) : charScore s s = 100 := by
  have hn : 0 < s.length := List.length_pos.mpr hs
  unfold charScore
  rw [if_neg (by omega)]
  rw [matchTotal_self s hs]
  have hq : (0 : ℚ) < (s.length : ℚ) := by exact_mod_cast hn
  rw [div_eq_iff (by linarith)]
  ring

/-! Bounds for the similarity factors, the best-match loop and rounding. -/

lemma jaccardQ_nonneg {i u : Nat} : 0 ≤ (i : ℚ) / (u : ℚ) * 100 := by positivity

lemma jaccardQ_le_100 {i u : Nat} (hiu : i ≤ u) (hu : 0 < u) :
    (i : ℚ) / (u : ℚ) * 100 ≤ 100 := by
  have huq : (0 : ℚ) < (u : ℚ) := by exact_mod_cast hu
  have h1 : (i : ℚ) / (u : ℚ) ≤ 1 := by
    rw [div_le_one huq]
    exact_mod_cast hiu
  nlinarith

lemma calculate_text_similarity_nonneg (t1 t2 : List Char) :
    0 ≤ calculate_text_similarity t1 t2 := by
  unfold calculate_text_similarity
  split
  · norm_num
  · have hc := charScore_nonneg (pyStrip (t1.map Char.toLower))
      (pyStrip (t2.map Char.toLower))
    have ht : (0 : ℚ) ≤ (if tokenSet (pyStrip (t1.map Char.toLower)) = ∅ ||
        tokenSet (pyStrip (t2.map Char.toLower)) = ∅ then (0 : ℚ)
      else ((tokenSet (pyStrip (t1.map Char.toLower)) ∩
          tokenSet (pyStrip (t2.map Char.toLower))).card : ℚ) /
        ((tokenSet (pyStrip (t1.map Char.toLower)) ∪
          tokenSet (pyStrip (t2.map Char.toLower))).card : ℚ) * 100) := by
      split
      · norm_num
      · exact jaccardQ_nonneg
    nlinarith

lemma calculate_text_similarity_le_100 (t1 t2 : List Char) :
    calculate_text_similarity t1 t2 ≤ 100 := by
  unfold calculate_text_similarity
  split
  · norm_num
  · have hc := charScore_le_100 (pyStrip (t1.map Char.toLower))
      (pyStrip (t2.map Char.toLower))
    have hc0 := charScore_nonneg (pyStrip (t1.map Char.toLower))
      (pyStrip (t2.map Char.toLower))
    have ht : (if tokenSet (pyStrip (t1.map Char.toLower)) = ∅ ||
        tokenSet (pyStrip (t2.map Char.toLower)) = ∅ then (0 : ℚ)
      else ((tokenSet (pyStrip (t1.map Char.toLower)) ∩
          tokenSet (pyStrip (t2.map Char.toLower))).card : ℚ) /
        ((tokenSet (pyStrip (t1.map Char.toLower)) ∪
          tokenSet (pyStrip (t2.map Char.toLower))).card : ℚ) * 100) ≤ 100 := by
      split
      · norm_num
      · rename_i hne
        simp only [Bool.or_eq_true, decide_eq_true_eq, not_or] at hne
        have h1 : tokenSet (pyStrip (t1.map Char.toLower)) ≠ ∅ := hne.1
        have hsub : tokenSet (pyStrip (t1.map Char.toLower)) ⊆
            tokenSet (pyStrip (t1.map Char.toLower)) ∪
            tokenSet (pyStrip (t2.map Char.toLower)) := Finset.subset_union_left
        have hpos : 0 < (tokenSet (pyStrip (t1.map Char.toLower)) ∪
            tokenSet (pyStrip (t2.map Char.toLower))).card := by
          rw [Finset.card_pos]
          exact (Finset.nonempty_of_ne_empty h1).mono hsub
        exact jaccardQ_le_100
          (Finset.card_le_card Finset.inter_subset_union) hpos
    nlinarith

lemma calculate_entity_overlap_nonneg (e1 e2 : List Entity) :
    0 ≤ calculate_entity_overlap e1 e2 := by
  unfold calculate_entity_overlap
  split
  · norm_num
  · split
    · norm_num
    · exact jaccardQ_nonneg

lemma calculate_entity_overlap_le_100 (e1 e2 : List Entity) :
    calculate_entity_overlap e1 e2 ≤ 100 := by
  unfold calculate_entity_overlap
  split
  · norm_num
  · split
    · norm_num
    · rename_i h0
      exact jaccardQ_le_100 (Finset.card_le_card Finset.inter_subset_union)
        (Nat.pos_of_ne_zero h0)

lemma calculate_media_similarity_nonneg (m1 m2 : List (List Char)) :
    0 ≤ calculate_media_similarity m1 m2 := by
  unfold calculate_media_similarity
  split
  · norm_num
  · split <;> norm_num

lemma calculate_media_similarity_le_100 (m1 m2 : List (List Char)) :
    calculate_media_similarity m1 m2 ≤ 100 := by
  unfold calculate_media_similarity
  split
  · norm_num
  · split <;> norm_num

lemma calculate_url_similarity_nonneg (u1 u2 : List (List Char)) :
    0 ≤ calculate_url_similarity u1 u2 := by
  unfold calculate_url_similarity
  split
  · norm_num
  · split <;> norm_num

lemma calculate_url_similarity_le_100 (u1 u2 : List (List Char)) :
    calculate_url_similarity u1 u2 ≤ 100 := by
  unfold calculate_url_similarity
  split
  · norm_num
  · split <;> norm_num

lemma calculate_similarity_score_nonneg (a b : Tweet) :
    0 ≤ calculate_similarity_score a b := by
  have h1 := calculate_text_similarity_nonneg a.text_normalized b.text_normalized
  have h2 := calculate_entity_overlap_nonneg a.entities b.entities
  have h3 := calculate_media_similarity_nonneg a.media_hashes b.media_hashes
  have h4 := calculate_url_similarity_nonneg a.urls_canonical b.urls_canonical
  unfold calculate_similarity_score
  nlinarith

lemma calculate_similarity_score_le_100 (a b : Tweet) :
    calculate_similarity_score a b ≤ 100 := by
  have h1 := calculate_text_similarity_le_100 a.text_normalized b.text_normalized
  have h2 := calculate_entity_overlap_le_100 a.entities b.entities
  have h3 := calculate_media_similarity_le_100 a.media_hashes b.media_hashes
  have h4 := calculate_url_similarity_le_100 a.urls_canonical b.urls_canonical
  have h5 := calculate_text_similarity_nonneg a.text_normalized b.text_normalized
  have h6 := calculate_entity_overlap_nonneg a.entities b.entities
  have h7 := calculate_media_similarity_nonneg a.media_hashes b.media_hashes
  have h8 := calculate_url_similarity_nonneg a.urls_canonical b.urls_canonical
  unfold calculate_similarity_score
  nlinarith

lemma findBestAux_bs_bounds (r : Tweet) :
    ∀ (ms : List Tweet) (bm : Option Tweet) (bs : ℚ), 0 ≤ bs → bs ≤ 100 →
      0 ≤ (findBestAux r bm bs ms).2 ∧ (findBestAux r bm bs ms).2 ≤ 100
  | [], bm, bs, h0, h1 => ⟨h0, h1⟩
  | m :: rest, bm, bs, h0, h1 => by
    unfold findBestAux
    split
    · exact findBestAux_bs_bounds r rest (some m) _
        (calculate_similarity_score_nonneg r m)
        (calculate_similarity_score_le_100 r m)
    · exact findBestAux_bs_bounds r rest bm bs h0 h1

lemma findBestAux_const (r : Tweet) :
    ∀ (ms : List Tweet) (bm : Option Tweet) (bs : ℚ),
      (∀ m ∈ ms, calculate_similarity_score r m ≤ bs) →
      findBestAux r bm bs ms = (bm, bs)
  | [], bm, bs, _ => rfl
  | m :: rest, bm, bs, h => by
    unfold findBestAux
    rw [if_neg (by simpa using h m (List.mem_cons_self m rest))]
    exact findBestAux_const r rest bm bs
      (fun x hx => h x (List.mem_cons_of_mem _ hx))

/-- The best-match loop selects the first list element attaining the running
    maximum: processing `pre ++ b :: post` from any accumulator strictly below
    the score of `b`, with every element of `pre` strictly below it and every
    element of `post` at most it, yields `b` and its score. -/
lemma findBestAux_firstmax (r : Tweet) :
    ∀ (pre : List Tweet) (b : Tweet) (post : List Tweet)
      (bm : Option Tweet) (bs : ℚ),
      bs < calculate_similarity_score r b →
      (∀ x ∈ pre, calculate_similarity_score r x < calculate_similarity_score r b) →
      (∀ x ∈ post, calculate_similarity_score r x ≤ calculate_similarity_score r b) →
      findBestAux r bm bs (pre ++ b :: post) =
        (some b, calculate_similarity_score r b)
  | [], b, post, bm, bs, hbs, _, hpost => by
    rw [List.nil_append]
    unfold findBestAux
    rw [if_pos hbs]
    exact findBestAux_const r post (some b) _ hpost
  | p :: pre, b, post, bm, bs, hbs, hpre, hpost => by
    rw [List.cons_append]
    unfold findBestAux
    split
    · exact findBestAux_firstmax r pre b post (some p) _
        (hpre p (List.mem_cons_self p pre))
        (fun x hx => hpre x (List.mem_cons_of_mem _ hx)) hpost
    · exact findBestAux_firstmax r pre b post bm bs hbs
        (fun x hx => hpre x (List.mem_cons_of_mem _ hx)) hpost

lemma roundHalfEven_eq_floor_or (q : ℚ) :
    roundHalfEven q = ⌊q⌋ ∨ roundHalfEven q = ⌊q⌋ + 1 := by
  unfold roundHalfEven
  split_ifs <;> simp

lemma round2_nonneg {q : ℚ} (h : 0 ≤ q) : 0 ≤ round2 q := by
  unfold round2
  have h0 : (0 : ℤ) ≤ ⌊q * 100⌋ := Int.floor_nonneg.mpr (by positivity)
  have h1 : (0 : ℤ) ≤ roundHalfEven (q * 100) := by
    rcases roundHalfEven_eq_floor_or (q * 100) with he | he <;> omega
  apply div_nonneg _ (by norm_num)
  exact_mod_cast h1

lemma round2_le_100 {q : ℚ} (h : q ≤ 100) : round2 q ≤ 100 := by
  unfold round2
  have hfl : (⌊q * 100⌋ : ℚ) ≤ q * 100 := Int.floor_le _
  have key : (roundHalfEven (q * 100) : ℚ) ≤ 10000 := by
    unfold roundHalfEven
    split_ifs with h1 h2 h3
    · nlinarith
    · have hlt : (⌊q * 100⌋ : ℚ) < 10000 := by nlinarith
      have hint : ⌊q * 100⌋ < 10000 := by exact_mod_cast hlt
      have h9 : ⌊q * 100⌋ ≤ 9999 := by omega
      push_cast
      have : (⌊q * 100⌋ : ℚ) ≤ 9999 := by exact_mod_cast h9
      linarith
    · nlinarith
    · have heq : q * 100 - (⌊q * 100⌋ : ℚ) = 1 / 2 := le_antisymm (not_lt.mp h2) (not_lt.mp h1)
      have hlt : (⌊q * 100⌋ : ℚ) < 10000 := by nlinarith
      have hint : ⌊q * 100⌋ < 10000 := by exact_mod_cast hlt
      have h9 : ⌊q * 100⌋ ≤ 9999 := by omega
      push_cast
      have : (⌊q * 100⌋ : ℚ) ≤ 9999 := by exact_mod_cast h9
      linarith
  rw [div_le_iff₀ (by norm_num : (0 : ℚ) < 100)]
  linarith

lemma round2_at_100 : round2 100 = 100 := by decide!

/-! Self-similarity facts used for identical reports. -/

lemma pyWords_nil : pyWords [] = [] := rfl

lemma calculate_text_similarity_self (t : List Char) (ht : t ≠ [])
    (hw : tokenSet (pyStrip (t.map Char.toLower)) ≠ ∅) :
    calculate_text_similarity t t = 100 := by
  have hs : pyStrip (t.map Char.toLower) ≠ [] := by
    intro hnil
    apply hw
    rw [hnil]
    rfl
  simp only [calculate_text_similarity]
  rw [if_neg (by simp [ht])]
  rw [if_neg (by simp [hw])]
  rw [charScore_self _ hs]
  rw [Finset.inter_self, Finset.union_self]
  have hc : 0 < (tokenSet (pyStrip (t.map Char.toLower))).card :=
    Finset.card_pos.mpr (Finset.nonempty_of_ne_empty hw)
  have hcq : ((tokenSet (pyStrip (t.map Char.toLower))).card : ℚ) ≠ 0 := by
    exact_mod_cast Nat.pos_iff_ne_zero.mp hc
  rw [div_self hcq]
  norm_num

lemma calculate_entity_overlap_self (e : List Entity) (he : e ≠ []) :
    calculate_entity_overlap e e = 100 := by
  have hne : (e.map (fun x => x.value.map Char.toLower)).toFinset ≠ ∅ := by
    rw [Ne, List.toFinset_eq_empty_iff]
    simp [he]
  have hc : 0 < ((e.map (fun x => x.value.map Char.toLower)).toFinset).card :=
    Finset.card_pos.mpr (Finset.nonempty_of_ne_empty hne)
  unfold calculate_entity_overlap
  rw [if_neg (by simp [he])]
  rw [Finset.union_self, Finset.inter_self]
  rw [if_neg (by omega)]
  have hcq : (((e.map (fun x => x.value.map Char.toLower)).toFinset).card : ℚ) ≠ 0 := by
    exact_mod_cast Nat.pos_iff_ne_zero.mp hc
  rw [div_self hcq]
  norm_num

lemma calculate_media_similarity_self (m : List (List Char)) (hm : m ≠ []) :
    calculate_media_similarity m m = 100 := by
  unfold calculate_media_similarity
  rw [if_neg (by simp [hm])]
  rw [Finset.inter_self]
  rw [if_pos (by rw [Ne, List.toFinset_eq_empty_iff]; simp [hm])]

lemma calculate_url_similarity_self (u : List (List Char)) (hu : u ≠ []) :
    calculate_url_similarity u u = 100 := by
  unfold calculate_url_similarity
  rw [if_neg (by simp [hu])]
  rw [Finset.inter_self]
  rw [if_pos (by rw [Ne, List.toFinset_eq_empty_iff]; simp [hu])]

/-- Composite score of two reports with identical (nonempty) content. -/
lemma calculate_similarity_score_self (a b : Tweet)
    (h1 : b.text_normalized = a.text_normalized)
    (h2 : b.entities = a.entities)
    (h3 : b.media_hashes = a.media_hashes)
    (h4 : b.urls_canonical = a.urls_canonical)
    (ht : a.text_normalized ≠ [])
    (hw : tokenSet (pyStrip (a.text_normalized.map Char.toLower)) ≠ ∅)
    (he : a.entities ≠ []) (hm : a.media_hashes ≠ []) (hu : a.urls_canonical ≠ []) :
    calculate_similarity_score b a = 100 := by
  unfold calculate_similarity_score
  rw [h1, h2, h3, h4]
  rw [calculate_text_similarity_self _ ht hw,
    calculate_entity_overlap_self _ he,
    calculate_media_similarity_self _ hm,
    calculate_url_similarity_self _ hu]
  norm_num

/-- Two reports with identical content never trigger the new-information
    detector. -/
lemma detect_new_information_self (a b : Tweet)
    (h1 : b.text_normalized = a.text_normalized)
    (h2 : b.entities = a.entities)
    (h3 : b.media_hashes = a.media_hashes)
    (h4 : b.urls_canonical = a.urls_canonical) :
    detect_new_information b a = false := by
  unfold detect_new_information
  rw [h1, h2, h3, h4]
  simp only [lt_irrefl, decide_False, Bool.or_self, Bool.false_or, sdiff_self,
    Bool.or_eq_false_iff]
  refine ⟨⟨⟨by simp, by simp⟩, by simp⟩, ?_⟩
  simp only [Bool.and_eq_false_iff]
  right
  simp only [decide_eq_false_iff_not, not_lt]
  omega

/-! Unfolding lemmas for `classify_tweet`. -/

lemma classify_tweet_snd (r : Tweet) (ms : List Tweet) :
    (classify_tweet r ms).2 = scoreMatches r ms := by
  unfold classify_tweet
  split
  · rename_i h
    rw [h]
    rfl
  · rcases hfb : findBestAux r none 0 ms with ⟨_ | bm, bs⟩
    · simp [hfb]
    · simp only [hfb]
      split <;> rfl

lemma classify_tweet_matched (r : Tweet) (ms : List Tweet) (bm : Tweet) (bs : ℚ)
    (hne : ms ≠ []) (hfb : findBestAux r none 0 ms = (some bm, bs))
    (h70 : ¬ bs < 70) :
    classify_tweet r ms = (classifyMain r bm bs, scoreMatches r ms) := by
  unfold classify_tweet
  rw [if_neg hne, hfb]
  simp [h70]

/-! Claim theorems. -/

/-- Claim C9: classifying any report against an empty candidate list yields
    status ORIGINAL, confidence 100, and time delta 0. -/
theorem claim_C9_empty_list_original (r : Tweet) :
    (classify_tweet r []).1.status = "ORIGINAL".data ∧
    (classify_tweet r []).1.confidence = 100 ∧
    (classify_tweet r []).1.time_delta_seconds = 0 :=
  ⟨rfl, rfl, rfl⟩

/-- Claim C8 (amended): `classify_tweet` is deterministic over its inputs (it
    is a function of the report and candidate list alone), but it does mutate
    caller-observable state: the candidate dicts passed in come back with
    their `similarity_score` key set to the computed composite score. -/
theorem claim_C8_candidates_mutated (r : Tweet) (ms : List Tweet) :
    (classify_tweet r ms).2 =
      ms.map (fun m =>
        { m with similarity_score := some (calculate_similarity_score r m) }) :=
  classify_tweet_snd r ms

/-- Claim C4: the composite similarity score is exactly
    `0.40*text + 0.25*entity + 0.20*media + 0.15*url`, and each of the four
    factors lies on the 0–100 scale. -/
theorem claim_C4_composite_weights (a b : Tweet) :
    calculate_similarity_score a b =
      calculate_text_similarity a.text_normalized b.text_normalized * 0.40 +
      calculate_entity_overlap a.entities b.entities * 0.25 +
      calculate_media_similarity a.media_hashes b.media_hashes * 0.20 +
      calculate_url_similarity a.urls_canonical b.urls_canonical * 0.15 ∧
    (0 ≤ calculate_text_similarity a.text_normalized b.text_normalized ∧
      calculate_text_similarity a.text_normalized b.text_normalized ≤ 100) ∧
    (0 ≤ calculate_entity_overlap a.entities b.entities ∧
      calculate_entity_overlap a.entities b.entities ≤ 100) ∧
    (0 ≤ calculate_media_similarity a.media_hashes b.media_hashes ∧
      calculate_media_similarity a.media_hashes b.media_hashes ≤ 100) ∧
    (0 ≤ calculate_url_similarity a.urls_canonical b.urls_canonical ∧
      calculate_url_similarity a.urls_canonical b.urls_canonical ≤ 100) :=
  ⟨rfl,
    ⟨calculate_text_similarity_nonneg _ _, calculate_text_similarity_le_100 _ _⟩,
    ⟨calculate_entity_overlap_nonneg _ _, calculate_entity_overlap_le_100 _ _⟩,
    ⟨calculate_media_similarity_nonneg _ _, calculate_media_similarity_le_100 _ _⟩,
    ⟨calculate_url_similarity_nonneg _ _, calculate_url_similarity_le_100 _ _⟩⟩

/-- Claim C10: for every report and candidate list the returned confidence
    lies in the closed interval [0, 100]. -/
theorem claim_C10_confidence_in_range (r : Tweet) (ms : List Tweet) :
    0 ≤ (classify_tweet r ms).1.confidence ∧
      (classify_tweet r ms).1.confidence ≤ 100 := by
  unfold classify_tweet
  split
  · exact ⟨by norm_num [originalResult], by norm_num [originalResult]⟩
  · rcases hfb : findBestAux r none 0 ms with ⟨_ | bm, bs⟩
    · simp only [hfb]
      exact ⟨by norm_num [originalResult], by norm_num [originalResult]⟩
    · have hb := findBestAux_bs_bounds r ms none 0 le_rfl (by norm_num)
      rw [hfb] at hb
      simp only [hfb]
      split
    -- sub-threshold: confidence 100 - bs
      · rename_i hlt
        constructor
        · show (0 : ℚ) ≤ 100 - bs
          linarith [hb.2]
        · show (100 : ℚ) - bs ≤ 100
          linarith [hb.1]
      · have hcc : 0 ≤ (classifyCC r bm bs).2 ∧ (classifyCC r bm bs).2 ≤ 100 := by
          unfold classifyCC
          rcases hb with ⟨hb0, hb1⟩
          split_ifs <;> constructor <;> simp only <;> nlinarith
        show 0 ≤ round2 (classifyCC r bm bs).2 ∧ round2 (classifyCC r bm bs).2 ≤ 100
        exact ⟨round2_nonneg hcc.1, round2_le_100 hcc.2⟩

/-! Concrete reports used by the counterexamples and witnesses. -/

/-- Helper to build a concrete report dict. -/
def mkReport (txt : List Char) (ents : List Entity) (media urls : List (List Char))
    (ts : Option Int) (tier : List Char) (tid : Option (List Char)) : Tweet :=
  { text_normalized := txt
    entities := ents
    media_hashes := media
    urls_canonical := urls
    timestamp_et := ts
    timestamp_utc := none
    author_tier := tier
    canonical_event_id := none
    tweet_id := tid
    display_time := none
    author := none
    similarity_score := none }

def entGPE (v : List Char) : Entity := { etype := "GPE".data, value := v, confidence := 0.9 }

/-- First report: text, one entity, one URL, no media, t = 0. -/
def identA : Tweet :=
  mkReport "x".data [entGPE "a".data] [] ["u".data] (some 0) "2_AMPLIFIER".data
    (some "a".data)

/-- Identical report posted 600 s later. -/
def identB : Tweet :=
  mkReport "x".data [entGPE "a".data] [] ["u".data] (some 600) "2_AMPLIFIER".data
    (some "b".data)

/-- Like `identA`/`identB` but sharing one media hash. -/
def mediaA : Tweet :=
  mkReport "x".data [entGPE "a".data] ["m".data] ["u".data] (some 0)
    "2_AMPLIFIER".data (some "a".data)

def mediaB : Tweet :=
  mkReport "x".data [entGPE "a".data] ["m".data] ["u".data] (some 600)
    "2_AMPLIFIER".data (some "b".data)

/-- Candidate with three entities; incoming with two of them, 100 s later:
    entity Jaccard 2/3, text/media/url identical, composite 275/3 ≈ 91.7. -/
def entC0 : Tweet :=
  mkReport "x".data [entGPE "a".data, entGPE "b".data, entGPE "c".data]
    ["m".data] ["u".data] (some 0) "2_AMPLIFIER".data (some "a".data)

def entC100 : Tweet :=
  mkReport "x".data [entGPE "a".data, entGPE "b".data] ["m".data] ["u".data]
    (some 100) "2_AMPLIFIER".data (some "b".data)

/-- Tie-break scenario: two candidates with identical content (equal scores
    against the incoming report) but different timestamps, the later-timestamp
    one listed first. -/
def tieInc : Tweet :=
  mkReport "x".data [entGPE "a".data] [] ["u".data] (some 3000)
    "2_AMPLIFIER".data (some "inc".data)

def tieLate : Tweet :=
  mkReport "x".data [entGPE "a".data] [] ["u".data] (some 2000)
    "2_AMPLIFIER".data (some "late".data)

def tieEarly : Tweet :=
  mkReport "x".data [entGPE "a".data] [] ["u".data] (some 1000)
    "2_AMPLIFIER".data (some "early".data)

/-- Claim C1 counterexample: two reports with identical normalized text,
    identical entity sets, identical canonical URL sets and the same tier,
    posted 600 s apart, are classified RELATED (score 80 < 85), not REPOST:
    without a shared media hash the composite score cannot reach
    REPOST_THRESHOLD. -/
theorem claim_C1_counterexample :
    identB.text_normalized = identA.text_normalized ∧
    identB.entities = identA.entities ∧
    identB.urls_canonical = identA.urls_canonical ∧
    identB.author_tier = identA.author_tier ∧
    timeDelta identB identA = 600 ∧
    calculate_similarity_score identB identA = 80 ∧
    (classify_tweet identB [identA]).1.status ≠ "REPOST".data ∧
    (classify_tweet identB [identA]).1.status = "RELATED".data := by decide!

/-- Claim C1 (amended): two reports with identical nonempty normalized text,
    identical nonempty entity sets, identical nonempty canonical URL sets,
    identical nonempty media hashes and the same tier, the second posted
    600 s after the first, are classified REPOST with confidence 100. -/
theorem claim_C1_identical_repost (a b : Tweet)
    (h1 : b.text_normalized = a.text_normalized)
    (h2 : b.entities = a.entities)
    (h3 : b.media_hashes = a.media_hashes)
    (h4 : b.urls_canonical = a.urls_canonical)
    (h5 : b.author_tier = a.author_tier)
    (ht : a.text_normalized ≠ [])
    (hw : tokenSet (pyStrip (a.text_normalized.map Char.toLower)) ≠ ∅)
    (he : a.entities ≠ []) (hm : a.media_hashes ≠ []) (hu : a.urls_canonical ≠ [])
    (htd : timeDelta b a = 600) :
    (classify_tweet b [a]).1.status = "REPOST".data ∧
    (classify_tweet b [a]).1.confidence = 100 := by
  have hscore : calculate_similarity_score b a = 100 :=
    calculate_similarity_score_self a b h1 h2 h3 h4 ht hw he hm hu
  have hfb : findBestAux b none 0 [a] = (some a, 100) := by
    unfold findBestAux
    rw [hscore]
    rw [if_pos (by norm_num)]
    rfl
  have hcl := classify_tweet_matched b [a] a 100 (by simp) hfb (by norm_num)
  rw [hcl]
  have hnew : detect_new_information b a = false :=
    detect_new_information_self a b h1 h2 h3 h4
  unfold classifyMain classifyCC
  rw [htd, hnew, h5]
  rw [if_pos (by norm_num : (85 : ℚ) ≤ 100)]
  rw [if_neg (by norm_num : ¬ (600 : ℤ) < 5 * 60)]
  rw [if_neg (by simp)]
  rw [if_pos le_rfl]
  exact ⟨rfl, round2_at_100⟩

/-- Claim C1 witness: the amended theorem applied to the concrete
    media-sharing pair. -/
theorem claim_C1_witness :
    (classify_tweet mediaB [mediaA]).1.status = "REPOST".data ∧
    (classify_tweet mediaB [mediaA]).1.confidence = 100 :=
  claim_C1_identical_repost mediaA mediaB (by decide!) (by decide!) (by decide!)
    (by decide!) (by decide!) (by decide!) (by decide!) (by decide!) (by decide!)
    (by decide!) (by decide!)

/-- Claim C2 (amended): when the best candidate scores at least
    REPOST_THRESHOLD and the time delta is strictly inside the 5-minute
    independence window, the report is classified RELATED — never REPOST —
    with confidence `round(score * 0.8, 2)` (the code rounds the confidence
    to two decimals before returning it). -/
theorem claim_C2_window_related (r b : Tweet) (ms : List Tweet) (bs : ℚ)
    (hfb : findBestAux r none 0 ms = (some b, bs))
    (h85 : 85 ≤ bs)
    (htd : timeDelta r b < 5 * 60) :
    (classify_tweet r ms).1.status = "RELATED".data ∧
    (classify_tweet r ms).1.status ≠ "REPOST".data ∧
    (classify_tweet r ms).1.confidence = round2 (bs * 0.8) := by
  have hne : ms ≠ [] := by
    intro h
    rw [h] at hfb
    exact absurd (congrArg Prod.fst hfb) (by simp [findBestAux])
  have hcl := classify_tweet_matched r ms b bs hne hfb (by linarith)
  rw [hcl]
  unfold classifyMain classifyCC
  rw [if_pos h85, if_pos htd]
  refine ⟨rfl, ?_, rfl⟩
  show ("RELATED".data : List Char) ≠ "REPOST".data
  decide

/-- Claim C2 witness: the amended theorem applied to the concrete pair with
    composite score 275/3 and time delta 100 s. -/
theorem claim_C2_witness :
    (classify_tweet entC100 [entC0]).1.status = "RELATED".data ∧
    (classify_tweet entC100 [entC0]).1.status ≠ "REPOST".data ∧
    (classify_tweet entC100 [entC0]).1.confidence = round2 ((275 / 3 : ℚ) * 0.8) :=
  claim_C2_window_related entC100 entC0 [entC0] (275 / 3) (by decide!) (by decide!)
    (by decide!)

/-- Claim C2 counterexample: at score 275/3 (≥ 85) and delta 100 s (< 300 s)
    the returned confidence is the two-decimal rounding 73.33, which differs
    from score × 0.8 = 220/3: the claim's exact equality fails. -/
theorem claim_C2_counterexample :
    findBestAux entC100 none 0 [entC0] = (some entC0, 275 / 3) ∧
    (85 : ℚ) ≤ 275 / 3 ∧
    timeDelta entC100 entC0 < 5 * 60 ∧
    (classify_tweet entC100 [entC0]).1.status = "RELATED".data ∧
    (classify_tweet entC100 [entC0]).1.confidence = 7333 / 100 ∧
    (classify_tweet entC100 [entC0]).1.confidence ≠ (275 / 3 : ℚ) * 0.8 := by decide!

/-- Claim C6 counterexample: two candidates tie exactly on the maximum
    composite score, but `classify_tweet` keeps the first one in list order —
    here the candidate with the LATER timestamp — not the earliest-timestamp
    one as the claim states. -/
theorem claim_C6_counterexample :
    calculate_similarity_score tieInc tieLate =
      calculate_similarity_score tieInc tieEarly ∧
    tieLate.timestamp_et = some 2000 ∧
    tieEarly.timestamp_et = some 1000 ∧
    (classify_tweet tieInc [tieLate, tieEarly]).1.original_tweet_id =
      some "late".data := by decide!

/-- Claim C6 (amended): the best-match selection keeps the first candidate in
    list order attaining the maximum composite score (ties are broken by list
    position, not by candidate timestamp): for any decomposition
    `pre ++ b :: post` where every earlier candidate scores strictly less
    than `b` and every candidate scores at most `b`, with `b`'s score
    positive, the loop selects `b`. -/
theorem claim_C6_first_listed_wins (r : Tweet) (pre post : List Tweet) (b : Tweet)
    (hpos : 0 < calculate_similarity_score r b)
    (hpre : ∀ x ∈ pre,
      calculate_similarity_score r x < calculate_similarity_score r b)
    (hpost : ∀ x ∈ post,
      calculate_similarity_score r x ≤ calculate_similarity_score r b) :
    findBestAux r none 0 (pre ++ b :: post) =
      (some b, calculate_similarity_score r b) :=
  findBestAux_firstmax r pre b post none 0 hpos hpre hpost

/-- Claim C6 witness: the amended theorem applied to the concrete tie, with
    the later-timestamp candidate listed first. -/
theorem claim_C6_witness :
    findBestAux tieInc none 0 ([] ++ tieLate :: [tieEarly]) =
      (some tieLate, calculate_similarity_score tieInc tieLate) :=
  claim_C6_first_listed_wins tieInc [] [tieEarly] tieLate (by decide!)
    (by decide!) (by decide!)

/-- Claim C8 counterexample: the candidate dict passed to `classify_tweet`
    comes back changed — its `similarity_score` key is set by the call, so
    caller-observable state is modified. -/
theorem claim_C8_counterexample :
    identA.similarity_score = none ∧
    (classify_tweet identB [identA]).2 ≠ [identA] ∧
    (classify_tweet identB [identA]).2 =
      [{ identA with similarity_score := some 80 }] := by decide!

/-- Claim C5: for a source with a positive tracked count the reliability
    score is the clamp to [0,1] of
    `0.40*original_ratio + min(2*update_ratio, 0.30) + 0.20*(1 - false_alarm_ratio)
    + tier_bonus`; a missing metrics row or a zero tracked count scores 0.50;
    and 100 tracked / 40 original / 10 update / 5 false-alarm at a top tier
    gives exactly 0.65 = 13/20. -/
theorem claim_C5_reliability_formula :
    (∀ m : AccountMetrics, 0 < m.total_tweets_tracked →
      calculate_reliability_score (some m) =
        max 0 (min 1
          (0.40 * ((m.total_original_reports : ℚ) / (m.total_tweets_tracked : ℚ)) +
            min (2 * ((m.total_updates : ℚ) / (m.total_tweets_tracked : ℚ))) 0.30 +
            0.20 * (1 - (m.false_alarm_count : ℚ) / (m.total_tweets_tracked : ℚ)) +
            tier_bonus m.tier))) ∧
    calculate_reliability_score none = 0.50 ∧
    (∀ m : AccountMetrics, m.total_tweets_tracked = 0 →
      calculate_reliability_score (some m) = 0.50) ∧
    calculate_reliability_score
      (some { total_tweets_tracked := 100, total_original_reports := 40,
              total_reposts := 0, total_updates := 10, false_alarm_count := 5,
              tier := "1A_OSINT".data }) = 13 / 20 := by
  refine ⟨?_, rfl, ?_, by decide!⟩
  · intro m hm
    simp only [calculate_reliability_score]
    rw [if_neg (by omega)]
    congr 2
    ring_nf
  · intro m hm
    simp only [calculate_reliability_score]
    rw [if_pos hm]

/-- Claim C5 witness: the formula conjunct applied to the concrete top-tier
    metrics row. -/
theorem claim_C5_witness :
    calculate_reliability_score
      (some { total_tweets_tracked := 100, total_original_reports := 40,
              total_reposts := 0, total_updates := 10, false_alarm_count := 5,
              tier := "1A_OSINT".data }) =
      max 0 (min 1
        (0.40 * ((40 : ℚ) / (100 : ℚ)) + min (2 * ((10 : ℚ) / (100 : ℚ))) 0.30 +
          0.20 * (1 - (5 : ℚ) / (100 : ℚ)) + tier_bonus "1A_OSINT".data)) :=
  claim_C5_reliability_formula.1
    { total_tweets_tracked := 100, total_original_reports := 40,
      total_reposts := 0, total_updates := 10, false_alarm_count := 5,
      tier := "1A_OSINT".data } (by norm_num)

/-- Headline with low importance (13 < 20) but a location entity: admitted
    to the queue, refuting the claim that no sub-floor headline is ever
    queued. -/
def lowImpHl : Headline :=
  { text := List.replicate 81 'z'
    author := none
    display_time := none
    importance := none
    entities := [entGPE "a".data]
    event_id := none }

/-- Headline with low importance and no entities: rejected. -/
def noEntHl : Headline :=
  { text := List.replicate 81 'z'
    author := none
    display_time := none
    importance := none
    entities := []
    event_id := none }

/-- Claim C7 counterexample: a headline whose importance score 13 is below
    MIN_IMPORTANCE_SCORE = 20 is admitted to the pending queue, because it
    carries a location entity (the filter only rejects when the score is
    below the floor AND no location/organization entity is present). -/
theorem claim_C7_counterexample :
    calculate_importance lowImpHl.text lowImpHl.entities = 13 ∧
    (13 : Int) < MIN_IMPORTANCE_SCORE ∧
    add_headline lowImpHl [] = [{ lowImpHl with importance := some 13 }] := by
  decide!

/-- Claim C7 (amended): a headline whose effective importance score is below
    MIN_IMPORTANCE_SCORE and which carries no GPE/LOC/ORG/MILITARY_ORG entity
    is never admitted to the pending digest queue (the queue is returned
    unchanged), hence such a headline is never emitted in a digest. -/
theorem claim_C7_low_importance_rejected (h : Headline) (q : List Headline)
    (himp : h.importance.getD (calculate_importance h.text h.entities) <
      MIN_IMPORTANCE_SCORE)
    (hent : ∀ e ∈ h.entities, e.etype ≠ "GPE".data ∧ e.etype ≠ "LOC".data ∧
      e.etype ≠ "ORG".data ∧ e.etype ≠ "MILITARY_ORG".data) :
    add_headline h q = q := by
  unfold add_headline
  split
  · rfl
  · split
    · rfl
    · have hnews : is_newsworthy h.text h.entities
          (h.importance.getD (calculate_importance h.text h.entities)) = false := by
        unfold is_newsworthy
        split
        · rfl
        · split
          · rfl
          · have hl : (h.entities.any fun e =>
                e.etype = "GPE".data || e.etype = "LOC".data) = false := by
              rw [List.any_eq_false]
              intro e he
              simp [(hent e he).1, (hent e he).2.1]
            have ho : (h.entities.any fun e =>
                e.etype = "ORG".data || e.etype = "MILITARY_ORG".data) = false := by
              rw [List.any_eq_false]
              intro e he
              simp [(hent e he).2.2.1, (hent e he).2.2.2]
            rw [hl, ho]
            rw [if_pos (by simp [himp])]
      rw [hnews]
      simp

/-- Claim C7 witness: the amended theorem applied to the concrete
    entity-free low-importance headline against the empty queue. -/
theorem claim_C7_witness : add_headline noEntHl [] = [] :=
  claim_C7_low_importance_rejected noEntHl [] (by decide!) (by decide!)

/-! Development for claim C3: behaviour of `normalize_text` on its own
    output. -/

lemma toNat_ofNat_valid {n : Nat} (h : n.isValidChar) :
    (Char.ofNat n).toNat = n := by
  rw [Char.ofNat, dif_pos h]
  rfl

lemma toLower_toLower (c : Char) : c.toLower.toLower = c.toLower := by
  simp only [Char.toLower]
  by_cases h : c.toNat ≥ 65 ∧ c.toNat ≤ 90
  · rw [if_pos h]
    have hvalid : (c.toNat + 32).isValidChar := Or.inl (by omega)
    rw [if_neg (by rw [toNat_ofNat_valid hvalid]; omega)]
  · rw [if_neg h, if_neg h]

lemma toLower_space : Char.toLower ' ' = ' ' := by decide

lemma subMentionF_id : ∀ (fuel : Nat) (l : List Char),
    (∀ c ∈ l, c ≠ '@') → subMentionF fuel l = l
  | 0, l, _ => rfl
  | _ + 1, [], _ => rfl
  | fuel + 1, c :: rest, h => by
    unfold subMentionF
    rw [if_neg (by simp [h c (List.mem_cons_self c rest)])]
    rw [subMentionF_id fuel rest (fun x hx => h x (List.mem_cons_of_mem _ hx))]

lemma subMention_id (l : List Char) (h : ∀ c ∈ l, c ≠ '@') :
    subMention l = l := subMentionF_id _ l h

lemma subHashF_id : ∀ (fuel : Nat) (l : List Char),
    (∀ c ∈ l, c ≠ '#') → subHashF fuel l = l
  | 0, l, _ => rfl
  | _ + 1, [], _ => rfl
  | fuel + 1, c :: rest, h => by
    unfold subHashF
    rw [if_neg (by simp [h c (List.mem_cons_self c rest)])]
    rw [subHashF_id fuel rest (fun x hx => h x (List.mem_cons_of_mem _ hx))]

lemma subHash_id (l : List Char) (h : ∀ c ∈ l, c ≠ '#') :
    subHash l = l := subHashF_id _ l h

lemma map_toLower_id (l : List Char) (h : ∀ c ∈ l, Char.toLower c = c) :
    l.map Char.toLower = l :=
  (List.map_congr_left h).trans l.map_id

lemma length_dropWhile_le (p : Char → Bool) (l : List Char) :
    (l.dropWhile p).length ≤ l.length := (List.dropWhile_sublist p).length_le

lemma pyWordsF_congr : ∀ (f1 f2 : Nat) (l : List Char),
    l.length ≤ f1 → l.length ≤ f2 → pyWordsF f1 l = pyWordsF f2 l
  | 0, f2, l, h1, _ => by
    have : l = [] := List.length_eq_zero.mp (Nat.le_zero.mp h1)
    subst this
    cases f2 <;> rfl
  | _ + 1, 0, l, _, h2 => by
    have : l = [] := List.length_eq_zero.mp (Nat.le_zero.mp h2)
    subst this
    rfl
  | _ + 1, _ + 1, [], _, _ => rfl
  | f1 + 1, f2 + 1, c :: rest, h1, h2 => by
    unfold pyWordsF
    split
    · exact pyWordsF_congr f1 f2 rest (by simpa using h1) (by simpa using h2)
    · rw [pyWordsF_congr f1 f2 (rest.dropWhile fun d => !isPySpace d)
        (le_trans (length_dropWhile_le _ _) (by simpa using h1))
        (le_trans (length_dropWhile_le _ _) (by simpa using h2))]

lemma pyWords_cons (c : Char) (rest : List Char) :
    pyWords (c :: rest) =
      if isPySpace c then pyWords rest
      else (c :: rest.takeWhile (fun d => !isPySpace d)) ::
        pyWords (rest.dropWhile (fun d => !isPySpace d)) := by
  show pyWordsF (rest.length + 1) (c :: rest) = _
  unfold pyWordsF
  split
  · exact pyWordsF_congr _ _ rest le_rfl le_rfl
  · rw [pyWordsF_congr rest.length
      (rest.dropWhile fun d => !isPySpace d).length
      (rest.dropWhile fun d => !isPySpace d)
      (length_dropWhile_le _ _) le_rfl]
    rfl

/-- Every word produced by `pyWords` is nonempty and made of non-whitespace
    characters of the input. -/
lemma pyWords_sound : ∀ (n : Nat) (l : List Char), l.length ≤ n →
    ∀ w ∈ pyWords l, w ≠ [] ∧ ∀ c ∈ w, c ∈ l ∧ isPySpace c = false
  | 0, l, h1 => by
    have : l = [] := List.length_eq_zero.mp (Nat.le_zero.mp h1)
    subst this
    intro w hw
    simp [pyWords, pyWordsF] at hw
  | n + 1, [], _ => by
    intro w hw
    simp [pyWords, pyWordsF] at hw
  | n + 1, c :: rest, h1 => by
    intro w hw
    rw [pyWords_cons] at hw
    by_cases hsp : isPySpace c
    · rw [if_pos hsp] at hw
      have := pyWords_sound n rest (by simpa using h1) w hw
      exact ⟨this.1, fun x hx =>
        ⟨List.mem_cons_of_mem _ (this.2 x hx).1, (this.2 x hx).2⟩⟩
    · rw [if_neg hsp] at hw
      rcases List.mem_cons.mp hw with hw | hw
      · subst hw
        refine ⟨by simp, ?_⟩
        intro x hx
        rcases List.mem_cons.mp hx with hx | hx
        · subst hx
          exact ⟨List.mem_cons_self _ _, by simpa using hsp⟩
        · have hmem : x ∈ rest.takeWhile (fun d => !isPySpace d) := hx
          refine ⟨List.mem_cons_of_mem _ ((List.takeWhile_sublist _).mem hmem), ?_⟩
          have := List.mem_takeWhile_imp hmem
          simpa using this
      · have := pyWords_sound n (rest.dropWhile fun d => !isPySpace d)
          (le_trans (length_dropWhile_le _ _) (by simpa using h1)) w hw
        exact ⟨this.1, fun x hx =>
          ⟨List.mem_cons_of_mem _ ((List.dropWhile_sublist _).mem (this.2 x hx).1),
            (this.2 x hx).2⟩⟩

/-- The words-of-nonspace-chars invariant. -/
def wordsOK (ws : List (List Char)) : Prop :=
  ∀ w ∈ ws, w ≠ [] ∧ ∀ c ∈ w, isPySpace c = false

lemma pyWords_wordsOK (l : List Char) : wordsOK (pyWords l) :=
  fun w hw =>
    let h := pyWords_sound l.length l le_rfl w hw
    ⟨h.1, fun c hc => (h.2 c hc).2⟩

lemma mem_joinWs : ∀ (ws : List (List Char)) (c : Char), c ∈ joinWs ws →
    c = ' ' ∨ ∃ w ∈ ws, c ∈ w
  | [], c, h => by simp [joinWs] at h
  | [w], c, h => Or.inr ⟨w, List.mem_cons_self _ _, h⟩
  | w :: w2 :: ws, c, h => by
    rw [joinWs] at h
    rcases List.mem_append.mp h with h | h
    · exact Or.inr ⟨w, List.mem_cons_self _ _, h⟩
    · rcases List.mem_cons.mp h with h | h
      · exact Or.inl h
      · rcases mem_joinWs (w2 :: ws) c h with h | ⟨w3, hw3, hc⟩
        · exact Or.inl h
        · exact Or.inr ⟨w3, List.mem_cons_of_mem _ hw3, hc⟩

lemma mem_pyStrip (l : List Char) (c : Char) (h : c ∈ pyStrip l) : c ∈ l := by
  unfold pyStrip at h
  rw [List.mem_reverse] at h
  have h2 : c ∈ (l.dropWhile isPySpace).reverse :=
    (List.dropWhile_sublist isPySpace).mem h
  rw [List.mem_reverse] at h2
  exact (List.dropWhile_sublist isPySpace).mem h2

lemma takeWhile_word_append (p : Char → Bool) : ∀ (w rest : List Char),
    (∀ c ∈ w, p c = true) →
    (match rest with | [] => True | r :: _ => p r = false) →
    (w ++ rest).takeWhile p = w ∧ (w ++ rest).dropWhile p = rest
  | [], [], _, _ => ⟨rfl, rfl⟩
  | [], r :: t, _, hr => by
    simp only [List.nil_append, List.takeWhile_cons, List.dropWhile_cons]
    rw [hr]
    exact ⟨rfl, rfl⟩
  | c :: w, rest, hw, hr => by
    have hc : p c = true := hw c (List.mem_cons_self c w)
    have ih := takeWhile_word_append p w rest
      (fun x hx => hw x (List.mem_cons_of_mem _ hx)) hr
    simp only [List.cons_append, List.takeWhile_cons, List.dropWhile_cons, hc]
    rw [ih.1, ih.2]
    exact ⟨rfl, rfl⟩

lemma pyWords_joinWs : ∀ (ws : List (List Char)), wordsOK ws →
    pyWords (joinWs ws) = ws
  | [], _ => rfl
  | [w], h => by
    obtain ⟨hne, hchars⟩ := h w (List.mem_cons_self w [])
    obtain ⟨c, w2, rfl⟩ : ∃ c w2, w = c :: w2 := by
      cases w with
      | nil => exact absurd rfl hne
      | cons c w2 => exact ⟨c, w2, rfl⟩
    show pyWords (c :: w2) = [c :: w2]
    rw [pyWords_cons]
    have hc : isPySpace c = false := hchars c (List.mem_cons_self c w2)
    rw [if_neg (by simp [hc])]
    have ht := takeWhile_word_append (fun d => !isPySpace d) w2 []
      (fun x hx => by simp [hchars x (List.mem_cons_of_mem _ hx)]) trivial
    rw [List.append_nil] at ht
    rw [ht.1, ht.2]
    rfl
  | w :: w2 :: ws, h => by
    obtain ⟨hne, hchars⟩ := h w (List.mem_cons_self w (w2 :: ws))
    obtain ⟨c, w3, rfl⟩ : ∃ c w3, w = c :: w3 := by
      cases w with
      | nil => exact absurd rfl hne
      | cons c w3 => exact ⟨c, w3, rfl⟩
    show pyWords ((c :: w3) ++ ' ' :: joinWs (w2 :: ws)) = (c :: w3) :: w2 :: ws
    rw [List.cons_append, pyWords_cons]
    have hc : isPySpace c = false := hchars c (List.mem_cons_self c w3)
    rw [if_neg (by simp [hc])]
    have ht := takeWhile_word_append (fun d => !isPySpace d) w3
      (' ' :: joinWs (w2 :: ws))
      (fun x hx => by simp [hchars x (List.mem_cons_of_mem _ hx)])
      (by simp [isPySpace])
    rw [ht.1, ht.2, pyWords_cons, if_pos (by simp [isPySpace])]
    rw [pyWords_joinWs (w2 :: ws) (fun x hx => h x (List.mem_cons_of_mem _ hx))]

lemma joinWs_ne_nil : ∀ (ws : List (List Char)), wordsOK ws → ws ≠ [] →
    joinWs ws ≠ []
  | [], _, hne => absurd rfl hne
  | [w], h, _ => (h w (List.mem_cons_self w [])).1
  | w :: w2 :: ws, h, _ => by
    show w ++ ' ' :: joinWs (w2 :: ws) ≠ []
    simp

lemma head_notP_of_dropWhile_fix (p : Char → Bool) (d : Char) (t : List Char)
    (h : (d :: t).dropWhile p = d :: t) : p d = false := by
  by_contra hcon
  rw [List.dropWhile_cons, if_pos (by simpa using hcon)] at h
  have := congrArg List.length h
  have hle := length_dropWhile_le p t
  simp at this
  omega

lemma joinWs_dropWhile : ∀ (ws : List (List Char)), wordsOK ws →
    (joinWs ws).dropWhile isPySpace = joinWs ws
  | [], _ => rfl
  | [w], h => by
    obtain ⟨hne, hchars⟩ := h w (List.mem_cons_self w [])
    obtain ⟨c, w2, rfl⟩ : ∃ c w2, w = c :: w2 := by
      cases w with
      | nil => exact absurd rfl hne
      | cons c w2 => exact ⟨c, w2, rfl⟩
    show (c :: w2).dropWhile isPySpace = c :: w2
    rw [List.dropWhile_cons,
      if_neg (by simp [hchars c (List.mem_cons_self c w2)])]
  | w :: w2 :: ws, h => by
    obtain ⟨hne, hchars⟩ := h w (List.mem_cons_self w (w2 :: ws))
    obtain ⟨c, w3, rfl⟩ : ∃ c w3, w = c :: w3 := by
      cases w with
      | nil => exact absurd rfl hne
      | cons c w3 => exact ⟨c, w3, rfl⟩
    show ((c :: w3) ++ ' ' :: joinWs (w2 :: ws)).dropWhile isPySpace = _
    rw [List.cons_append, List.dropWhile_cons,
      if_neg (by simp [hchars c (List.mem_cons_self c w3)])]
    rfl

lemma joinWs_rev_dropWhile : ∀ (ws : List (List Char)), wordsOK ws →
    (joinWs ws).reverse.dropWhile isPySpace = (joinWs ws).reverse
  | [], _ => rfl
  | [w], h => by
    obtain ⟨hne, hchars⟩ := h w (List.mem_cons_self w [])
    show w.reverse.dropWhile isPySpace = w.reverse
    cases hrev : w.reverse with
    | nil => rfl
    | cons d t =>
      have hd : d ∈ w := by
        rw [← List.mem_reverse, hrev]
        exact List.mem_cons_self d t
      rw [List.dropWhile_cons, if_neg (by simp [hchars d hd])]
  | w :: w2 :: ws, h => by
    have hok : wordsOK (w2 :: ws) := fun x hx => h x (List.mem_cons_of_mem _ hx)
    have ihe := joinWs_rev_dropWhile (w2 :: ws) hok
    have hnn : joinWs (w2 :: ws) ≠ [] := joinWs_ne_nil (w2 :: ws) hok (by simp)
    have hrn : (joinWs (w2 :: ws)).reverse ≠ [] := by
      simpa using hnn
    obtain ⟨d, t, hdt⟩ : ∃ d t, (joinWs (w2 :: ws)).reverse = d :: t := by
      cases hx : (joinWs (w2 :: ws)).reverse with
      | nil => exact absurd hx hrn
      | cons d t => exact ⟨d, t, rfl⟩
    have hd : isPySpace d = false := by
      apply head_notP_of_dropWhile_fix isPySpace d t
      rw [← hdt]
      exact ihe
    show ((w ++ ' ' :: joinWs (w2 :: ws)).reverse).dropWhile isPySpace = _
    rw [List.reverse_append, List.reverse_cons, List.append_assoc]
    rw [hdt, List.cons_append]
    rw [List.dropWhile_cons, if_neg (by simp [hd])]
    rw [show joinWs (w :: w2 :: ws) = w ++ ' ' :: joinWs (w2 :: ws) from rfl]
    rw [List.reverse_append, List.reverse_cons, hdt]
    simp [List.append_assoc]

lemma pyStrip_joinWs (ws : List (List Char)) (h : wordsOK ws) :
    pyStrip (joinWs ws) = joinWs ws := by
  unfold pyStrip
  rw [joinWs_dropWhile ws h, joinWs_rev_dropWhile ws h, List.reverse_reverse]

/-- The trailing `strip` of `normalize_text` is always a no-op: the
    collapse step already produced a space-trimmed string. -/
lemma normalize_text_eq (t : List Char) :
    normalize_text t = joinWs (pyWords
      (((subHash (subMention (subUrl t))).map Char.toLower).filter
        (fun c => isPyWord c || isPySpace c))) := by
  unfold normalize_text
  split
  · rename_i h
    subst h
    rfl
  · exact pyStrip_joinWs _ (pyWords_wordsOK _)

/-- Every character of a normalized text is a word character or a space and
    is fixed by lowercasing. -/
lemma normalize_chars (t : List Char) (c : Char) (hc : c ∈ normalize_text t) :
    (isPyWord c || isPySpace c) = true ∧ Char.toLower c = c := by
  rw [normalize_text_eq] at hc
  rcases mem_joinWs _ c hc with rfl | ⟨w, hw, hcw⟩
  · exact ⟨by decide, by decide⟩
  · have hs := pyWords_sound _ _ le_rfl w hw
    have hc5 := (hs.2 c hcw).1
    rcases List.mem_filter.mp hc5 with ⟨hmem, hp⟩
    rcases List.mem_map.mp hmem with ⟨d, _, hd⟩
    refine ⟨hp, ?_⟩
    rw [← hd]
    exact toLower_toLower d

/-- Claim C3 counterexample: `normalize` is not idempotent.  On the input
    `ht#tpx` the hashtag unwrap glues `ht` and `tpx` into `httpx`; a second
    pass then matches it as a URL-like token and deletes it entirely. -/
theorem claim_C3_counterexample :
    normalize_text "ht#tpx".data = "httpx".data ∧
    normalize_text (normalize_text "ht#tpx".data) = [] ∧
    normalize_text (normalize_text "ht#tpx".data) ≠
      normalize_text "ht#tpx".data := by decide!

/-- Claim C3 (amended): `normalize` is idempotent on every input whose
    normalized form is left unchanged by the URL-removal pass — equivalently,
    whose normalized form contains no `http...`/`www...` token.  (The
    counterexample shows the restriction is necessary: a second application
    can delete URL-like tokens that normalization itself creates.) -/
theorem claim_C3_normalize_idempotent_no_url (t : List Char)
    (hurl : subUrl (normalize_text t) = normalize_text t) :
    normalize_text (normalize_text t) = normalize_text t := by
  have hch : ∀ c ∈ normalize_text t,
      (isPyWord c || isPySpace c) = true ∧ Char.toLower c = c :=
    fun c hc => normalize_chars t c hc
  have hmention : subMention (normalize_text t) = normalize_text t :=
    subMention_id _ (fun c hc heq => by
      subst heq
      exact absurd (hch _ hc).1 (by decide))
  have hhash : subHash (normalize_text t) = normalize_text t :=
    subHash_id _ (fun c hc heq => by
      subst heq
      exact absurd (hch _ hc).1 (by decide))
  have hlower : (normalize_text t).map Char.toLower = normalize_text t :=
    map_toLower_id _ (fun c hc => (hch c hc).2)
  have hfilter : (normalize_text t).filter
      (fun c => isPyWord c || isPySpace c) = normalize_text t :=
    List.filter_eq_self.mpr (fun c hc => (hch c hc).1)
  have hn := normalize_text_eq t
  rw [normalize_text_eq (normalize_text t), hurl, hmention, hhash, hlower,
    hfilter]
  calc joinWs (pyWords (normalize_text t))
      = joinWs (pyWords (joinWs (pyWords
          (((subHash (subMention (subUrl t))).map Char.toLower).filter
            (fun c => isPyWord c || isPySpace c))))) := by rw [← hn]
    _ = joinWs (pyWords
          (((subHash (subMention (subUrl t))).map Char.toLower).filter
            (fun c => isPyWord c || isPySpace c))) := by
          rw [pyWords_joinWs _ (pyWords_wordsOK _)]
    _ = normalize_text t := hn.symm

/-- Claim C3 witness: idempotence at a concrete input without URL-like
    tokens. -/
theorem claim_C3_witness :
    normalize_text (normalize_text "Strike on base!".data) =
      normalize_text "Strike on base!".data :=
  claim_C3_normalize_idempotent_no_url "Strike on base!".data (by decide!)

end OriginStamp